import Mathlib

/-!
Verification development for the background-removal job-tracking service.

The data model and handlers are shallowly embedded from the TypeScript
sources: the database is a list of rows, timestamps and random suffixes are
explicit parameters, thrown errors become `Except` results, and JavaScript
double-precision arithmetic is modelled exactly over the integers.
-/

/-- Job status enumeration, from the `image_job_status` pg enum. -/
inductive Status where
  | pending
  | processing
  | completed
  | failed
deriving DecidableEq, Repr

/-- One row of the `image_jobs` table (see `db/schema.ts` and `schema.ts`).
Timestamps are naturals (milliseconds); nullable columns are `Option`. -/
structure ImageJob where
  id : Nat
  original_filename : String
  original_file_url : String
  processed_file_url : Option String
  status : Status
  error_message : Option String
  created_at : Nat
  completed_at : Option Nat
  file_size_original : Nat
  file_size_processed : Option Nat
deriving DecidableEq, Repr

/-- Input of `createImageJob` (`createImageJobInputSchema`). -/
structure CreateImageJobInput where
  original_filename : String
  original_file_url : String
  file_size_original : Nat
deriving DecidableEq, Repr

/-- Input of `updateImageJobStatus` (`updateImageJobStatusInputSchema`);
the three optional fields are `none` when not supplied. -/
structure UpdateImageJobStatusInput where
  id : Nat
  status : Status
  processed_file_url : Option String
  error_message : Option String
  file_size_processed : Option Nat
deriving DecidableEq, Repr

/-- Claimed MIME type of an upload; `uploadFileInputSchema` restricts the
string to exactly these four values. -/
inductive Mime where
  | jpeg
  | jpg
  | png
  | webp
deriving DecidableEq, Repr

/-- Errors thrown by `uploadFile`. -/
inductive UploadError where
  | invalidFormat
  | tooLarge
deriving DecidableEq, Repr

/-- Errors thrown by `removeBackground`. -/
inductive RBError where
  | notFound
  | alreadyCompleted
  | alreadyInProgress
  | unprocessable
deriving DecidableEq, Repr

/-- Errors thrown by `updateImageJobStatus`. -/
inductive UpdError where
  | notFound
deriving DecidableEq, Repr

/-- Successful result of `uploadFile` (`uploadFileResponseSchema`). -/
structure UploadFileResponse where
  file_url : String
  file_size : Nat
deriving DecidableEq, Repr

deriving instance DecidableEq for Except

/-! ## Exact model of the JavaScript double computation `Math.floor(n * 0.7)` -/

/-- The integer significand of the IEEE-754 double nearest 0.7, i.e.
the double literal `0.7` equals `jsPoint7Num / 2 ^ 53`. -/
def jsPoint7Num : Nat := 6305039478318694

/-- Fuel-bounded bit length of a natural number (structural on fuel so the
kernel can evaluate it). -/
def bitLen : Nat → Nat → Nat
  | 0, _ => 0
  | fuel + 1, n => if n = 0 then 0 else bitLen fuel (n / 2) + 1

/-- Exact value of the JavaScript expression `Math.floor(n * 0.7)` for a
natural `n` below 2 ^ 53: the exact product `n * jsPoint7Num / 2 ^ 53` is
rounded to 53 significant bits (round to nearest, ties to even) and then
floored. Used by `removeBackground` to simulate the processed file size. -/
def jsFloorMul07 (n : Nat) : Nat :=
  let p := n * jsPoint7Num
  let L := bitLen 128 p
  if L ≤ 53 then p / 2 ^ 53
  else
    let s := L - 53
    let q := p / 2 ^ s
    let r := p % 2 ^ s
    let half := 2 ^ (s - 1)
    let m := if half < r ∨ (r = half ∧ q % 2 = 1) then q + 1 else q
    m * 2 ^ s / 2 ^ 53

/-! ## Upload validator (`handlers/upload_file.ts`) -/

/-- Maximum upload size in bytes (10 MiB), from `uploadFile`. -/
def maxFileSize : Nat := 10 * 1024 * 1024

/-- Read byte `i` of the decoded payload; out-of-range indexing yields the
sentinel 256, which compares unequal to every byte constant, matching the
JavaScript `undefined === c` comparison on a short buffer. -/
def byteAt (bytes : List Nat) (i : Nat) : Nat :=
  bytes.getD i 256

/-- Model of `validateImageFormat` from `upload_file.ts`: magic-byte check against
the claimed MIME type, preceded by a minimum-length-4 check. -/
def validateImageFormat (bytes : List Nat) (mime : Mime) : Bool :=
  if bytes.length < 4 then false
  else
    match mime with
    | .jpeg | .jpg =>
        byteAt bytes 0 = 0xFF ∧ byteAt bytes 1 = 0xD8 ∧ byteAt bytes 2 = 0xFF
    | .png =>
        byteAt bytes 0 = 0x89 ∧ byteAt bytes 1 = 0x50 ∧
        byteAt bytes 2 = 0x4E ∧ byteAt bytes 3 = 0x47
    | .webp =>
        byteAt bytes 0 = 0x52 ∧ byteAt bytes 1 = 0x49 ∧
        byteAt bytes 2 = 0x46 ∧ byteAt bytes 3 = 0x46 ∧
        byteAt bytes 8 = 0x57 ∧ byteAt bytes 9 = 0x45 ∧
        byteAt bytes 10 = 0x42 ∧ byteAt bytes 11 = 0x50

/-- Model of `getFileExtension` from `upload_file.ts`; total here because the zod
schema already restricts the MIME type to the four supported values. -/
def getFileExtension (mime : Mime) : String :=
  match mime with
  | .jpeg | .jpg => "jpg"
  | .png => "png"
  | .webp => "webp"

/-- Characters kept unchanged by the sanitizer: the class `[a-zA-Z0-9.-]`
of the replacement regex in `sanitizeFilename`. -/
def keepChar (c : Char) : Bool :=
  c.isAlpha ∨ c.isDigit ∨ c = '.' ∨ c = '-'

/-- The regex `/\.[^\x2f.]+$/` deletion on the reversed character list:
drop a maximal nonempty trailing run of characters that are neither a dot
nor a slash, when it is immediately preceded by a dot. -/
def stripExtRev (rev : List Char) : List Char :=
  let tail := rev.takeWhile (fun c => ¬ (c = '.' ∨ c = '/'))
  let rest := rev.dropWhile (fun c => ¬ (c = '.' ∨ c = '/'))
  match rest with
  | '.' :: rest2 => if tail.isEmpty then rev else rest2
  | _ => rev

/-- Model of `sanitizeFilename` from `upload_file.ts`: remove the final extension,
replace every character outside `[a-zA-Z0-9.-]` with an underscore, and
truncate to 50 characters. -/
def sanitizeFilename (filename : String) : String :=
  let noExt := (stripExtRev filename.toList.reverse).reverse
  let replaced := noExt.map (fun c => if keepChar c then c else '_')
  ⟨replaced.take 50⟩

/-- Model of `uploadFile` from `upload_file.ts`. The base64 decode is kept outside
the model: `bytes` is the decoded payload. `ts` and `rs` stand for the
`Date.now()` timestamp string and the random suffix. -/
def uploadFile (filename : String) (bytes : List Nat) (mime : Mime)
    (ts rs : String) : Except UploadError UploadFileResponse :=
  if maxFileSize < bytes.length then .error .tooLarge
  else if ¬ validateImageFormat bytes mime then .error .invalidFormat
  else
    let uniqueFilename :=
      ts ++ "-" ++ rs ++ "-" ++ sanitizeFilename filename ++ "." ++
        getFileExtension mime
    .ok { file_url := "https://storage.example.com/uploads/" ++ uniqueFilename
          file_size := bytes.length }

/-! ## Job store accessor -/

/-- Model of `createImageJob` (db-backed variant in `create_image_job.ts`): insert a
row with status `pending` and every nullable column null; the id and
creation timestamp are server-assigned, here explicit parameters. -/
def createImageJob (db : List ImageJob) (nextId now : Nat)
    (input : CreateImageJobInput) : ImageJob × List ImageJob :=
  let j : ImageJob :=
    { id := nextId
      original_filename := input.original_filename
      original_file_url := input.original_file_url
      processed_file_url := none
      status := .pending
      error_message := none
      created_at := now
      completed_at := none
      file_size_original := input.file_size_original
      file_size_processed := none }
  (j, db ++ [j])

/-- SQL `UPDATE ... WHERE id = i` : rewrite every row whose id matches. -/
def setJob (db : List ImageJob) (i : Nat) (f : ImageJob → ImageJob) :
    List ImageJob :=
  db.map (fun j => if j.id = i then f j else j)

/-- JavaScript truthiness of an optional string field: present and
non-empty. -/
def truthyStr (o : Option String) : Bool :=
  match o with
  | none => false
  | some s => s ≠ ""

/-- JavaScript truthiness of an optional numeric field: present and
non-zero. -/
def truthyNum (o : Option Nat) : Bool :=
  match o with
  | none => false
  | some n => n ≠ 0

/-- The row rewrite performed by `updateImageJobStatus`
(`update_image_job_status.ts`): status always written; each optional column
written only when the supplied value is truthy; `completed_at` written to
now exactly when the new status is `completed` or `failed`. -/
def applyUpd (now : Nat) (input : UpdateImageJobStatusInput)
    (j : ImageJob) : ImageJob :=
  { j with
    status := input.status
    processed_file_url :=
      if truthyStr input.processed_file_url then input.processed_file_url
      else j.processed_file_url
    error_message :=
      if truthyStr input.error_message then input.error_message
      else j.error_message
    file_size_processed :=
      if truthyNum input.file_size_processed then input.file_size_processed
      else j.file_size_processed
    completed_at :=
      if input.status = .completed ∨ input.status = .failed then some now
      else j.completed_at }

/-- Model of `updateImageJobStatus` from `update_image_job_status.ts`: run the
partial update, then return the first updated row, or `NotFound` when the
`returning()` set is empty. -/
def updateImageJobStatus (db : List ImageJob) (now : Nat)
    (input : UpdateImageJobStatusInput) :
    List ImageJob × Except UpdError ImageJob :=
  let db2 := setJob db input.id (applyUpd now input)
  match db2.find? (fun j => j.id = input.id) with
  | none => (db2, .error .notFound)
  | some r => (db2, .ok r)

/-- Insert a job into a list kept in non-increasing `created_at` order. -/
def insertByCreatedDesc (j : ImageJob) : List ImageJob → List ImageJob
  | [] => [j]
  | k :: ks =>
      if j.created_at ≤ k.created_at then k :: insertByCreatedDesc j ks
      else j :: k :: ks

/-- Sort rows by `created_at` descending (the `ORDER BY created_at DESC`
of `get_image_jobs.ts`), as an insertion sort. -/
def sortByCreatedDesc : List ImageJob → List ImageJob
  | [] => []
  | j :: js => insertByCreatedDesc j (sortByCreatedDesc js)

/-- Model of `getImageJobs` from `get_image_jobs.ts`: every stored row, newest
first. -/
def getImageJobs (db : List ImageJob) : List ImageJob :=
  sortByCreatedDesc db

/-! ## Job lifecycle handler (`removeBackground`) -/

/-- Processed-file URL fabricated by the `remove_background` variant with
the internal failure path (part_006): `processed_<id>_<ts>.png`. -/
def mkProcessedUrl (jobId now : Nat) : String :=
  "https://storage.example.com/processed_" ++ toString jobId ++ "_" ++
    toString now ++ ".png"

/-- Processed-file URL fabricated by the other `remove_background` variant
(part_005): `processed_<id>_<ts>_<original_filename>`. -/
def mkProcessedUrlV5 (jobId now : Nat) (origName : String) : String :=
  "https://storage.example.com/processed_" ++ toString jobId ++ "_" ++
    toString now ++ "_" ++ origName

/-- Model of `removeBackground` (part_006, the variant whose inner try/catch
converts a processing exception into persisted `failed` state).
`procFail = some msg` means the simulated processing step threw an
exception with message `msg`; `none` means it succeeded. Returns the
database after the call together with the thrown error or returned row. -/
def removeBackground (db : List ImageJob) (now : Nat)
    (procFail : Option String) (jobId : Nat) :
    List ImageJob × Except RBError ImageJob :=
  match db.find? (fun j => j.id = jobId) with
  | none => (db, .error .notFound)
  | some job =>
    if job.status = .completed then (db, .error .alreadyCompleted)
    else if job.status = .processing then (db, .error .alreadyInProgress)
    else if job.status = .failed then (db, .error .unprocessable)
    else
      let db1 := setJob db jobId (fun j => { j with status := .processing })
      match procFail with
      | none =>
        let url := mkProcessedUrl job.id now
        let size := jsFloorMul07 job.file_size_original
        let db2 := setJob db1 jobId (fun j =>
          { j with
            status := .completed
            processed_file_url := some url
            file_size_processed := some size
            completed_at := some now
            error_message := none })
        match db2.find? (fun j => j.id = jobId) with
        | none => (db2, .error .notFound)
        | some r => (db2, .ok r)
      | some msg =>
        let db2 := setJob db1 jobId (fun j =>
          { j with
            status := .failed
            error_message := some msg
            completed_at := some now })
        match db2.find? (fun j => j.id = jobId) with
        | none => (db2, .error .notFound)
        | some r => (db2, .ok r)

/-- Model of `removeBackground` (part_005, the variant without the internal
failure path): same guards, success path differs only in the fabricated
URL and in leaving `error_message` untouched. -/
def removeBackgroundV5 (db : List ImageJob) (now : Nat) (jobId : Nat) :
    List ImageJob × Except RBError ImageJob :=
  match db.find? (fun j => j.id = jobId) with
  | none => (db, .error .notFound)
  | some job =>
    if job.status = .completed then (db, .error .alreadyCompleted)
    else if job.status = .processing then (db, .error .alreadyInProgress)
    else if job.status = .failed then (db, .error .unprocessable)
    else
      let db1 := setJob db jobId (fun j => { j with status := .processing })
      let url := mkProcessedUrlV5 jobId now job.original_filename
      let size := jsFloorMul07 job.file_size_original
      let db2 := setJob db1 jobId (fun j =>
        { j with
          status := .completed
          processed_file_url := some url
          file_size_processed := some size
          completed_at := some now })
      match db2.find? (fun j => j.id = jobId) with
      | none => (db2, .error .notFound)
      | some r => (db2, .ok r)

/-! ## Data-model invariants (spec §3) -/

/-- The §3 invariants of a single row: processed fields only on
`completed`, error message only on `failed`, completion timestamp only on
terminal statuses. -/
def JobInv (j : ImageJob) : Prop :=
  (j.processed_file_url ≠ none → j.status = .completed) ∧
  (j.file_size_processed ≠ none → j.status = .completed) ∧
  (j.error_message ≠ none → j.status = .failed) ∧
  (j.completed_at ≠ none → j.status = .completed ∨ j.status = .failed)

instance (j : ImageJob) : Decidable (JobInv j) := by
  unfold JobInv; infer_instance

/-! ## Spec-side definitions

These follow the spec's words (not the code) and are compared with the
embedded handlers in refinement statements. -/

/-- Signature check exactly as the spec sentence words it: JPEG three
bytes, PNG all eight signature bytes, WebP RIFF at offset 0 and WEBP at
offset 8. -/
def specSigFull (mime : Mime) (bytes : List Nat) : Bool :=
  match mime with
  | .jpeg | .jpg => bytes.take 3 = [0xFF, 0xD8, 0xFF]
  | .png => bytes.take 8 = [0x89, 0x50, 0x4E, 0x47, 0x0D, 0x0A, 0x1A, 0x0A]
  | .webp =>
      bytes.take 4 = [0x52, 0x49, 0x46, 0x46] ∧
      (bytes.drop 8).take 4 = [0x57, 0x45, 0x42, 0x50]

/-- The condition under which the spec claims `uploadFile` fails with
`InvalidFormat`: empty payload, decoded size below ten bytes, or signature
mismatch per `specSigFull`. -/
def specClaimInvalidC5 (mime : Mime) (bytes : List Nat) : Bool :=
  bytes.isEmpty ∨ bytes.length < 10 ∨ ¬ specSigFull mime bytes

/-- The signature condition the code actually enforces, stated
independently of the code: at least four decoded bytes, and JPEG three
leading bytes, PNG only its first four signature bytes, WebP RIFF at
offset 0 and WEBP at offset 8. -/
def validMagic (mime : Mime) (bytes : List Nat) : Bool :=
  match mime with
  | .jpeg | .jpg => 4 ≤ bytes.length ∧ bytes.take 3 = [0xFF, 0xD8, 0xFF]
  | .png => 4 ≤ bytes.length ∧ bytes.take 4 = [0x89, 0x50, 0x4E, 0x47]
  | .webp =>
      4 ≤ bytes.length ∧
      bytes.take 4 = [0x52, 0x49, 0x46, 0x46] ∧
      (bytes.drop 8).take 4 = [0x57, 0x45, 0x42, 0x50]

/-- Character class the spec claims the sanitizer keeps. -/
def specKeepC7 (c : Char) : Bool :=
  c.isAlpha ∨ c.isDigit ∨ c = '.' ∨ c = '_' ∨ c = '-'

/-- Collapse every run of underscores to a single underscore. -/
def collapseUnderscores : List Char → List Char
  | [] => []
  | c :: rest =>
      let r := collapseUnderscores rest
      if c = '_' then
        match r with
        | '_' :: _ => r
        | _ => c :: r
      else c :: r

/-- Filename sanitization exactly as the spec sentence words it: replace
every character outside `[A-Za-z0-9._-]` with an underscore, collapse
repeated underscores, trim leading and trailing underscores. -/
def specSanitizeC7 (s : String) : String :=
  let mapped := s.toList.map (fun c => if specKeepC7 c then c else '_')
  let collapsed := collapseUnderscores mapped
  let trimmed :=
    ((collapsed.dropWhile (fun c => c = '_')).reverse.dropWhile
      (fun c => c = '_')).reverse
  ⟨trimmed⟩

/-! ## Concrete rows and inputs used by witnesses and counterexamples -/

/-- A freshly created pending job. -/
def demoPending : ImageJob :=
  { id := 1
    original_filename := "photo.jpg"
    original_file_url := "https://storage.example.com/uploads/photo.jpg"
    processed_file_url := none
    status := .pending
    error_message := none
    created_at := 100
    completed_at := none
    file_size_original := 1024000
    file_size_processed := none }

/-- A pending job whose original size exhibits the double-rounding
divergence of the simulated processing step. -/
def demoPending90 : ImageJob :=
  { demoPending with file_size_original := 90 }

/-- A completed job. -/
def demoCompleted : ImageJob :=
  { demoPending with
    id := 2
    status := .completed
    processed_file_url := some "https://storage.example.com/processed.png"
    completed_at := some 200
    file_size_processed := some 716800 }

/-- A job currently being processed. -/
def demoProcessing : ImageJob :=
  { demoPending with id := 3, status := .processing }

/-- A failed job. -/
def demoFailed : ImageJob :=
  { demoPending with
    id := 4
    status := .failed
    error_message := some "boom"
    completed_at := some 150 }

/-- A `createImageJob` input. -/
def demoCreateInput : CreateImageJobInput :=
  { original_filename := "new.png"
    original_file_url := "https://storage.example.com/uploads/new.png"
    file_size_original := 2048 }

/-- A status update that supplies an error message together with a
non-failed status. -/
def demoBadUpdate : UpdateImageJobStatusInput :=
  { id := 1
    status := .pending
    processed_file_url := none
    error_message := some "boom"
    file_size_processed := none }

/-- A status update to `completed` with no optional fields. -/
def demoCompleteUpdate : UpdateImageJobStatusInput :=
  { id := 1
    status := .completed
    processed_file_url := none
    error_message := none
    file_size_processed := none }

/-- A status update to `processing` with no optional fields. -/
def demoProcessingUpdate : UpdateImageJobStatusInput :=
  { id := 2
    status := .processing
    processed_file_url := none
    error_message := none
    file_size_processed := none }

/-! ## Helper lemmas -/

theorem getD_drop256 (l : List Nat) (n i : Nat) :
    (l.drop n).getD i 256 = l.getD (n + i) 256 := by
  induction l generalizing n with
  | nil => simp
  | cons x xs ih =>
    cases n with
    | zero => simp
    | succ m =>
      have h := ih m
      simp [Nat.succ_add, h]

theorem take4_at_iff (t : List Nat) (a b c d : Nat)
    (ha : a < 256) (hb : b < 256) (hc : c < 256) (hd : d < 256) :
    (t.take 4 = [a, b, c, d]) ↔
      (t.getD 0 256 = a ∧ t.getD 1 256 = b ∧ t.getD 2 256 = c ∧
        t.getD 3 256 = d) := by
  rcases t with _ | ⟨x, _ | ⟨y, _ | ⟨z, _ | ⟨w, r⟩⟩⟩⟩ <;> simp
  all_goals omega

theorem validateImageFormat_iff_validMagic (bytes : List Nat) (m : Mime) :
    validateImageFormat bytes m = true ↔ validMagic m bytes = true := by
  rcases bytes with _ | ⟨b0, _ | ⟨b1, _ | ⟨b2, _ | ⟨b3, rest⟩⟩⟩⟩ <;>
    cases m <;>
      simp [validateImageFormat, validMagic, byteAt, getD_drop256,
        take4_at_iff]
  all_goals omega

theorem find?_setJob (db : List ImageJob) (i : Nat) (f : ImageJob → ImageJob)
    (hf : ∀ j, (f j).id = j.id) (job : ImageJob)
    (h : db.find? (fun j => j.id = i) = some job) :
    (setJob db i f).find? (fun j => j.id = i) = some (f job) := by
  induction db with
  | nil => simp at h
  | cons a l ih =>
    by_cases ha : a.id = i
    · have hja : job = a := by
        simp [List.find?_cons, ha] at h
        exact h.symm
      subst hja
      simp [setJob, List.find?_cons, ha, hf]
    · simp only [List.find?_cons] at h
      rw [decide_eq_false ha] at h
      have := ih h
      simp only [setJob, List.map_cons, List.find?_cons, if_neg ha] at this ⊢
      rw [decide_eq_false ha]
      exact this

theorem perm_insertByCreatedDesc (j : ImageJob) (l : List ImageJob) :
    List.Perm (insertByCreatedDesc j l) (j :: l) := by
  induction l with
  | nil => rfl
  | cons k ks ih =>
    by_cases hle : j.created_at ≤ k.created_at
    · simp only [insertByCreatedDesc, if_pos hle]
      exact (ih.cons k).trans (List.Perm.swap j k ks)
    · simp [insertByCreatedDesc, if_neg hle]

theorem perm_sortByCreatedDesc (l : List ImageJob) :
    List.Perm (sortByCreatedDesc l) l := by
  induction l with
  | nil => rfl
  | cons j js ih =>
    exact (perm_insertByCreatedDesc j (sortByCreatedDesc js)).trans (ih.cons j)

theorem pairwise_insertByCreatedDesc (j : ImageJob) (l : List ImageJob)
    (h : l.Pairwise (fun a b => b.created_at ≤ a.created_at)) :
    (insertByCreatedDesc j l).Pairwise
      (fun a b => b.created_at ≤ a.created_at) := by
  induction l with
  | nil => simp [insertByCreatedDesc]
  | cons k ks ih =>
    rcases List.pairwise_cons.1 h with ⟨hk, hks⟩
    by_cases hle : j.created_at ≤ k.created_at
    · simp only [insertByCreatedDesc, if_pos hle]
      refine List.pairwise_cons.2 ⟨?_, ih hks⟩
      intro b hb
      have hb2 : b ∈ j :: ks := (perm_insertByCreatedDesc j ks).mem_iff.1 hb
      rcases List.mem_cons.1 hb2 with hbj | hbk
      · exact hbj ▸ hle
      · exact hk b hbk
    · simp only [insertByCreatedDesc, if_neg hle]
      refine List.pairwise_cons.2 ⟨?_, h⟩
      intro b hb
      rcases List.mem_cons.1 hb with hbk | hbk
      · subst hbk; omega
      · exact le_trans (hk b hbk) (by omega)

theorem pairwise_sortByCreatedDesc (l : List ImageJob) :
    (sortByCreatedDesc l).Pairwise (fun a b => b.created_at ≤ a.created_at) := by
  induction l with
  | nil => simp [sortByCreatedDesc]
  | cons j js ih => exact pairwise_insertByCreatedDesc j _ ih

/-- Characterization of both `uploadFile` failure modes against the
spec-style magic predicate: `InvalidFormat` exactly on payloads within the
size cap that fail the code's signature check, `TooLarge` exactly above
the cap. -/
theorem uploadFile_error_characterization (fn : String) (bytes : List Nat)
    (m : Mime) (ts rs : String) :
    (uploadFile fn bytes m ts rs = .error .invalidFormat ↔
      (bytes.length ≤ maxFileSize ∧ validMagic m bytes = false)) ∧
    (uploadFile fn bytes m ts rs = .error .tooLarge ↔
      maxFileSize < bytes.length) := by
  unfold uploadFile
  by_cases hlen : maxFileSize < bytes.length
  · constructor
    · simp [hlen]
    · simp [hlen]
  · have hle : bytes.length ≤ maxFileSize := Nat.not_lt.1 hlen
    by_cases hv : validateImageFormat bytes m = true
    · have hm : validMagic m bytes = true :=
        (validateImageFormat_iff_validMagic bytes m).1 hv
      simp [hlen, hv, hm]
    · have hvf : validateImageFormat bytes m = false := by
        cases hvb : validateImageFormat bytes m
        · rfl
        · exact absurd hvb hv
      have hm : validMagic m bytes = false := by
        cases hmb : validMagic m bytes
        · rfl
        · exact absurd ((validateImageFormat_iff_validMagic bytes m).2 hmb) hv
      simp [hlen, hvf, hm, hle]

/-- C5 counterexample: a five-byte JPEG payload (below the claimed
ten-byte threshold) and a ten-byte PNG payload whose bytes 4..7 are not
the PNG signature tail both fall under the claimed `InvalidFormat`
condition, yet the code accepts both. -/
theorem uploadFile_C5_counterexample :
    (specClaimInvalidC5 .jpeg [0xFF, 0xD8, 0xFF, 0, 0] = true ∧
      uploadFile "f.jpg" [0xFF, 0xD8, 0xFF, 0, 0] .jpeg "1" "r" ≠
        .error .invalidFormat) ∧
    (specClaimInvalidC5 .png [0x89, 0x50, 0x4E, 0x47, 0, 0, 0, 0, 0, 0] = true ∧
      uploadFile "f.png" [0x89, 0x50, 0x4E, 0x47, 0, 0, 0, 0, 0, 0] .png "1" "r" ≠
        .error .invalidFormat) := by
  decide

/-- C5 (amended): `uploadFile` fails with `InvalidFormat` exactly when the
decoded payload is within the 10 MiB cap and fails the code's signature
check: fewer than four decoded bytes, or leading bytes not matching the
claimed type (JPEG `FF D8 FF`; PNG only its first four signature bytes
`89 50 4E 47`; WebP `52 49 46 46` at offset 0 and `57 45 42 50` at
offset 8). -/
theorem uploadFile_invalidFormat_iff (fn : String) (bytes : List Nat)
    (m : Mime) (ts rs : String) :
    uploadFile fn bytes m ts rs = .error .invalidFormat ↔
      (bytes.length ≤ maxFileSize ∧ validMagic m bytes = false) :=
  (uploadFile_error_characterization fn bytes m ts rs).1

/-- C6 counterexample: a payload one byte over 10 MiB whose content does
not match the claimed PNG type fails with `TooLarge`, not the claimed
`InvalidFormat`. -/
theorem uploadFile_C6_counterexample :
    validMagic .png (List.replicate 10485761 0) = false ∧
    uploadFile "f.png" (List.replicate 10485761 0) .png "1" "r" =
      .error .tooLarge := by
  have hlen : (List.replicate 10485761 (0 : Nat)).length = 10485761 :=
    List.length_replicate 10485761 0
  have hbig : maxFileSize < (List.replicate 10485761 (0 : Nat)).length := by
    rw [hlen]; norm_num [maxFileSize]
  constructor
  · have hred : validMagic .png (List.replicate 10485761 0) =
        decide (4 ≤ (List.replicate 10485761 (0 : Nat)).length ∧
          (List.replicate 10485761 (0 : Nat)).take 4 =
            [0x89, 0x50, 0x4E, 0x47]) := rfl
    rw [hred]
    apply decide_eq_false
    rintro ⟨-, h⟩
    rw [List.take_replicate] at h
    have hmin : min 4 10485761 = 4 := by norm_num
    rw [hmin] at h
    exact absurd h (by decide)
  · unfold uploadFile
    rw [if_pos hbig]

/-- C6 (amended): a payload whose claimed MIME type does not match its
magic bytes fails `InvalidFormat` whenever its decoded size is within the
10 MiB cap; above the cap the size check runs first and the payload fails
`TooLarge` regardless of content. -/
theorem uploadFile_mismatch_behavior (fn : String) (bytes : List Nat)
    (m : Mime) (ts rs : String) :
    (bytes.length ≤ maxFileSize → validMagic m bytes = false →
      uploadFile fn bytes m ts rs = .error .invalidFormat) ∧
    (maxFileSize < bytes.length →
      uploadFile fn bytes m ts rs = .error .tooLarge) := by
  constructor
  · intro h1 h2
    exact (uploadFile_error_characterization fn bytes m ts rs).1.2 ⟨h1, h2⟩
  · intro h
    exact (uploadFile_error_characterization fn bytes m ts rs).2.2 h

theorem uploadFile_mismatch_behavior_witness :
    uploadFile "f.png" [0, 0, 0, 0] .png "1" "r" = .error .invalidFormat :=
  (uploadFile_mismatch_behavior "f.png" [0, 0, 0, 0] .png "1" "r").1
    (by decide) (by decide)

/-- C7 counterexample: on the filename `"a  b.png"` the code's sanitizer
yields `a__b` (no underscore collapsing, extension stripped and re-added),
so the returned URL does not contain the spec-claimed sanitized name
`a_b.png`. -/
theorem uploadFile_C7_counterexample :
    uploadFile "a  b.png" [0x89, 0x50, 0x4E, 0x47] .png "1" "r" =
      .ok { file_url := "https://storage.example.com/uploads/1-r-a__b.png",
            file_size := 4 } ∧
    ¬ ((specSanitizeC7 "a  b.png").toList <:+:
        ("https://storage.example.com/uploads/1-r-a__b.png").toList) := by
  decide

/-- C7 (amended): on a successful upload the filename is sanitized by
stripping the final extension, replacing every character outside
`[a-zA-Z0-9.-]` with an underscore (with no collapsing of repeats and no
trimming), and truncating to 50 characters; the timestamp and random
suffix are prepended and the extension derived from the MIME type is
appended; the returned URL is exactly the storage prefix plus that unique
name, the returned size is the decoded byte length, and every character
of the sanitized name lies in `[A-Za-z0-9._-]`. -/
theorem uploadFile_success_shape (fn : String) (bytes : List Nat)
    (m : Mime) (ts rs : String) (hle : bytes.length ≤ maxFileSize)
    (hv : validateImageFormat bytes m = true) :
    uploadFile fn bytes m ts rs =
      .ok { file_url := "https://storage.example.com/uploads/" ++
              (ts ++ "-" ++ rs ++ "-" ++ sanitizeFilename fn ++ "." ++
                getFileExtension m)
            file_size := bytes.length } ∧
    ∀ c ∈ (sanitizeFilename fn).toList, keepChar c = true ∨ c = '_' := by
  constructor
  · simp [uploadFile, Nat.not_lt.2 hle, hv]
  · intro c hc
    have hc2 : c ∈ ((stripExtRev fn.toList.reverse).reverse.map
        (fun c => if keepChar c then c else '_')).take 50 := hc
    have hc3 := List.mem_of_mem_take hc2
    rcases List.mem_map.1 hc3 with ⟨x, _, rfl⟩
    by_cases hk : keepChar x = true
    · left; simp [hk]
    · right; simp [hk]

theorem uploadFile_success_shape_witness :
    uploadFile "a  b.png" [0x89, 0x50, 0x4E, 0x47] .png "1" "r" =
      .ok { file_url := "https://storage.example.com/uploads/" ++
              ("1" ++ "-" ++ "r" ++ "-" ++ sanitizeFilename "a  b.png" ++
                "." ++ getFileExtension .png)
            file_size := [0x89, 0x50, 0x4E, 0x47].length } ∧
    ∀ c ∈ (sanitizeFilename "a  b.png").toList, keepChar c = true ∨ c = '_' :=
  uploadFile_success_shape "a  b.png" [0x89, 0x50, 0x4E, 0x47] .png "1" "r"
    (by decide) (by decide)

/-- C9: `getImageJobs` returns exactly the stored rows (a permutation of
the table) in non-increasing `created_at` order, and the empty table
yields the empty collection. -/
theorem getImageJobs_ordered (db : List ImageJob) :
    List.Perm (getImageJobs db) db ∧
    (getImageJobs db).Pairwise (fun a b => b.created_at ≤ a.created_at) ∧
    getImageJobs ([] : List ImageJob) = [] :=
  ⟨perm_sortByCreatedDesc db, pairwise_sortByCreatedDesc db, rfl⟩

/-- When a row with the requested id exists, `updateImageJobStatus` applies
`applyUpd` to every matching row and returns the rewritten first match. -/
theorem updateImageJobStatus_found (db : List ImageJob) (now : Nat)
    (input : UpdateImageJobStatusInput) (old : ImageJob)
    (h : db.find? (fun j => j.id = input.id) = some old) :
    updateImageJobStatus db now input =
      (setJob db input.id (applyUpd now input),
        .ok (applyUpd now input old)) := by
  have hid : ∀ j, (applyUpd now input j).id = j.id := fun _ => rfl
  have h2 := find?_setJob db input.id (applyUpd now input) hid old h
  simp only [updateImageJobStatus]
  rw [h2]

/-- C8: when the job exists, updating to `completed` or `failed` always
writes `completed_at = now`, and updating to `processing` leaves
`completed_at` exactly as it was. -/
theorem updateImageJobStatus_completed_at (db : List ImageJob) (now : Nat)
    (input : UpdateImageJobStatusInput) (old : ImageJob)
    (h : db.find? (fun j => j.id = input.id) = some old) :
    ∃ db2 r, updateImageJobStatus db now input = (db2, .ok r) ∧
      ((input.status = .completed ∨ input.status = .failed) →
        r.completed_at = some now) ∧
      (input.status = .processing → r.completed_at = old.completed_at) := by
  refine ⟨_, _, updateImageJobStatus_found db now input old h, ?_, ?_⟩
  · intro hst
    simp only [applyUpd]
    rw [if_pos hst]
  · intro hst
    simp only [applyUpd]
    rw [if_neg]
    rw [hst]
    rintro (hc | hc) <;> cases hc

theorem updateImageJobStatus_completed_at_witness :
    ∃ db2 r, updateImageJobStatus [demoPending] 777 demoCompleteUpdate =
        (db2, .ok r) ∧
      ((demoCompleteUpdate.status = .completed ∨
          demoCompleteUpdate.status = .failed) →
        r.completed_at = some 777) ∧
      (demoCompleteUpdate.status = .processing →
        r.completed_at = demoPending.completed_at) :=
  updateImageJobStatus_completed_at [demoPending] 777 demoCompleteUpdate
    demoPending (by decide)

/-- C10: `updateImageJobStatus` writes an optional column only when the
supplied value is truthy, so a previously non-null optional column is
never nulled out: it is unchanged unless a truthy replacement was
supplied, and remains non-null in every case. -/
theorem updateImageJobStatus_optionals (db : List ImageJob) (now : Nat)
    (input : UpdateImageJobStatusInput) (old : ImageJob)
    (h : db.find? (fun j => j.id = input.id) = some old) :
    ∃ db2 r, updateImageJobStatus db now input = (db2, .ok r) ∧
      r.processed_file_url =
        (if truthyStr input.processed_file_url then input.processed_file_url
          else old.processed_file_url) ∧
      r.error_message =
        (if truthyStr input.error_message then input.error_message
          else old.error_message) ∧
      r.file_size_processed =
        (if truthyNum input.file_size_processed then input.file_size_processed
          else old.file_size_processed) ∧
      (old.processed_file_url ≠ none → r.processed_file_url ≠ none) ∧
      (old.error_message ≠ none → r.error_message ≠ none) ∧
      (old.file_size_processed ≠ none → r.file_size_processed ≠ none) := by
  refine ⟨_, _, updateImageJobStatus_found db now input old h,
    rfl, rfl, rfl, ?_, ?_, ?_⟩
  · intro hne
    simp only [applyUpd]
    cases hpu : input.processed_file_url with
    | none => simp [truthyStr, hne]
    | some s =>
      by_cases hs : s = ""
      · simp [truthyStr, hs, hne]
      · simp [truthyStr, hs]
  · intro hne
    simp only [applyUpd]
    cases hpu : input.error_message with
    | none => simp [truthyStr, hne]
    | some s =>
      by_cases hs : s = ""
      · simp [truthyStr, hs, hne]
      · simp [truthyStr, hs]
  · intro hne
    simp only [applyUpd]
    cases hpu : input.file_size_processed with
    | none => simp [truthyNum, hne]
    | some n =>
      by_cases hn : n = 0
      · simp [truthyNum, hn, hne]
      · simp [truthyNum, hn]

theorem updateImageJobStatus_optionals_witness :
    ∃ db2 r, updateImageJobStatus [demoCompleted] 900 demoProcessingUpdate =
        (db2, .ok r) ∧
      r.processed_file_url =
        (if truthyStr demoProcessingUpdate.processed_file_url then
          demoProcessingUpdate.processed_file_url
          else demoCompleted.processed_file_url) ∧
      r.error_message =
        (if truthyStr demoProcessingUpdate.error_message then
          demoProcessingUpdate.error_message
          else demoCompleted.error_message) ∧
      r.file_size_processed =
        (if truthyNum demoProcessingUpdate.file_size_processed then
          demoProcessingUpdate.file_size_processed
          else demoCompleted.file_size_processed) ∧
      (demoCompleted.processed_file_url ≠ none →
        r.processed_file_url ≠ none) ∧
      (demoCompleted.error_message ≠ none → r.error_message ≠ none) ∧
      (demoCompleted.file_size_processed ≠ none →
        r.file_size_processed ≠ none) :=
  updateImageJobStatus_optionals [demoCompleted] 900 demoProcessingUpdate
    demoCompleted (by decide)

/-- On a pending job with a successful simulated processing step,
`removeBackground` persists the two updates and returns the completed
row. -/
theorem removeBackground_success_eq (db : List ImageJob) (now jobId : Nat)
    (job : ImageJob) (h : db.find? (fun j => j.id = jobId) = some job)
    (hp : job.status = .pending) :
    removeBackground db now none jobId =
      (setJob (setJob db jobId (fun j => { j with status := .processing }))
        jobId (fun j =>
          { j with
            status := .completed
            processed_file_url := some (mkProcessedUrl job.id now)
            file_size_processed := some (jsFloorMul07 job.file_size_original)
            completed_at := some now
            error_message := none }),
        .ok { job with
              status := .completed
              processed_file_url := some (mkProcessedUrl job.id now)
              file_size_processed := some (jsFloorMul07 job.file_size_original)
              completed_at := some now
              error_message := none }) := by
  have hid1 : ∀ j : ImageJob,
      (({ j with status := .processing } : ImageJob)).id = j.id := fun _ => rfl
  have h1 := find?_setJob db jobId
    (fun j => { j with status := .processing }) hid1 job h
  have hid2 : ∀ j : ImageJob,
      (({ j with
          status := .completed
          processed_file_url := some (mkProcessedUrl job.id now)
          file_size_processed := some (jsFloorMul07 job.file_size_original)
          completed_at := some now
          error_message := none } : ImageJob)).id = j.id := fun _ => rfl
  have h2 := find?_setJob
    (setJob db jobId (fun j => { j with status := .processing })) jobId
    (fun j =>
      { j with
        status := .completed
        processed_file_url := some (mkProcessedUrl job.id now)
        file_size_processed := some (jsFloorMul07 job.file_size_original)
        completed_at := some now
        error_message := none }) hid2 _ h1
  simp only [removeBackground, h, hp]
  rw [h2]
  rfl

/-- On a pending job whose simulated processing step throws, the catch
block of `removeBackground` persists the failed state and returns the
failed row. -/
theorem removeBackground_failure_eq (db : List ImageJob) (now : Nat)
    (msg : String) (jobId : Nat) (job : ImageJob)
    (h : db.find? (fun j => j.id = jobId) = some job)
    (hp : job.status = .pending) :
    removeBackground db now (some msg) jobId =
      (setJob (setJob db jobId (fun j => { j with status := .processing }))
        jobId (fun j =>
          { j with
            status := .failed
            error_message := some msg
            completed_at := some now }),
        .ok { job with
              status := .failed
              error_message := some msg
              completed_at := some now }) := by
  have hid1 : ∀ j : ImageJob,
      (({ j with status := .processing } : ImageJob)).id = j.id := fun _ => rfl
  have h1 := find?_setJob db jobId
    (fun j => { j with status := .processing }) hid1 job h
  have hid2 : ∀ j : ImageJob,
      (({ j with
          status := .failed
          error_message := some msg
          completed_at := some now } : ImageJob)).id = j.id := fun _ => rfl
  have h2 := find?_setJob
    (setJob db jobId (fun j => { j with status := .processing })) jobId
    (fun j =>
      { j with
        status := .failed
        error_message := some msg
        completed_at := some now }) hid2 _ h1
  simp only [removeBackground, h, hp]
  rw [h2]
  rfl

/-- On a pending job, the part_005 variant persists the two updates and
returns the completed row. -/
theorem removeBackgroundV5_success_eq (db : List ImageJob) (now jobId : Nat)
    (job : ImageJob) (h : db.find? (fun j => j.id = jobId) = some job)
    (hp : job.status = .pending) :
    removeBackgroundV5 db now jobId =
      (setJob (setJob db jobId (fun j => { j with status := .processing }))
        jobId (fun j =>
          { j with
            status := .completed
            processed_file_url :=
              some (mkProcessedUrlV5 jobId now job.original_filename)
            file_size_processed := some (jsFloorMul07 job.file_size_original)
            completed_at := some now }),
        .ok { job with
              status := .completed
              processed_file_url :=
                some (mkProcessedUrlV5 jobId now job.original_filename)
              file_size_processed := some (jsFloorMul07 job.file_size_original)
              completed_at := some now }) := by
  have hid1 : ∀ j : ImageJob,
      (({ j with status := .processing } : ImageJob)).id = j.id := fun _ => rfl
  have h1 := find?_setJob db jobId
    (fun j => { j with status := .processing }) hid1 job h
  have hid2 : ∀ j : ImageJob,
      (({ j with
          status := .completed
          processed_file_url :=
            some (mkProcessedUrlV5 jobId now job.original_filename)
          file_size_processed := some (jsFloorMul07 job.file_size_original)
          completed_at := some now } : ImageJob)).id = j.id := fun _ => rfl
  have h2 := find?_setJob
    (setJob db jobId (fun j => { j with status := .processing })) jobId
    (fun j =>
      { j with
        status := .completed
        processed_file_url :=
          some (mkProcessedUrlV5 jobId now job.original_filename)
        file_size_processed := some (jsFloorMul07 job.file_size_original)
        completed_at := some now }) hid2 _ h1
  simp only [removeBackgroundV5, h, hp]
  rw [h2]
  rfl

theorem urlContainsId (i now : Nat) :
    (toString i).toList <:+: (mkProcessedUrl i now).toList := by
  refine ⟨"https://storage.example.com/processed_".toList,
    ("_" ++ toString now ++ ".png").toList, ?_⟩
  simp [mkProcessedUrl, String.toList, String.data_append, List.append_assoc]

theorem urlContainsNow (i now : Nat) :
    (toString now).toList <:+: (mkProcessedUrl i now).toList := by
  refine ⟨("https://storage.example.com/processed_" ++ toString i ++
    "_").toList, ".png".toList, ?_⟩
  simp [mkProcessedUrl, String.toList, String.data_append, List.append_assoc]

theorem urlContainsIdV5 (i now : Nat) (nm : String) :
    (toString i).toList <:+: (mkProcessedUrlV5 i now nm).toList := by
  refine ⟨"https://storage.example.com/processed_".toList,
    ("_" ++ toString now ++ "_" ++ nm).toList, ?_⟩
  simp [mkProcessedUrlV5, String.toList, String.data_append, List.append_assoc]

theorem urlContainsNowV5 (i now : Nat) (nm : String) :
    (toString now).toList <:+: (mkProcessedUrlV5 i now nm).toList := by
  refine ⟨("https://storage.example.com/processed_" ++ toString i ++
    "_").toList, ("_" ++ nm).toList, ?_⟩
  simp [mkProcessedUrlV5, String.toList, String.data_append, List.append_assoc]

/-- C2: in both `removeBackground` variants a job found in a non-pending
status is rejected with the status-specific error and the stored rows are
returned unchanged; only a pending job proceeds to the transition and
yields a returned row. -/
theorem removeBackground_guard_rejections (db : List ImageJob) (now : Nat)
    (pf : Option String) (jobId : Nat) (job : ImageJob)
    (h : db.find? (fun j => j.id = jobId) = some job) :
    (job.status = .completed →
        removeBackground db now pf jobId = (db, .error .alreadyCompleted) ∧
        removeBackgroundV5 db now jobId = (db, .error .alreadyCompleted)) ∧
    (job.status = .processing →
        removeBackground db now pf jobId = (db, .error .alreadyInProgress) ∧
        removeBackgroundV5 db now jobId = (db, .error .alreadyInProgress)) ∧
    (job.status = .failed →
        removeBackground db now pf jobId = (db, .error .unprocessable) ∧
        removeBackgroundV5 db now jobId = (db, .error .unprocessable)) ∧
    (job.status = .pending →
        (∃ db2 r, removeBackground db now pf jobId = (db2, .ok r)) ∧
        (∃ db2 r, removeBackgroundV5 db now jobId = (db2, .ok r))) := by
  refine ⟨?_, ?_, ?_, ?_⟩
  · intro hst
    constructor <;> simp [removeBackground, removeBackgroundV5, h, hst]
  · intro hst
    constructor <;> simp [removeBackground, removeBackgroundV5, h, hst]
  · intro hst
    constructor <;> simp [removeBackground, removeBackgroundV5, h, hst]
  · intro hst
    constructor
    · cases pf with
      | none => exact ⟨_, _, removeBackground_success_eq db now jobId job h hst⟩
      | some msg =>
          exact ⟨_, _, removeBackground_failure_eq db now msg jobId job h hst⟩
    · exact ⟨_, _, removeBackgroundV5_success_eq db now jobId job h hst⟩

theorem removeBackground_guard_rejections_witness :
    removeBackground [demoCompleted] 5 none 2 =
        ([demoCompleted], .error .alreadyCompleted) ∧
      removeBackgroundV5 [demoCompleted] 5 2 =
        ([demoCompleted], .error .alreadyCompleted) :=
  (removeBackground_guard_rejections [demoCompleted] 5 none 2 demoCompleted
    (by decide)).1 (by decide)

/-- C3 (amended): on a pending job both `removeBackground` variants
succeed and return the row completed, with `file_size_processed` equal to
the exact double-precision evaluation of `Math.floor(size * 0.7)` (716800
at the claimed size 1024000), a non-null processed URL containing the job
id and the timestamp, and `completed_at` set. -/
theorem removeBackground_pending_success (db : List ImageJob)
    (now jobId : Nat) (job : ImageJob)
    (h : db.find? (fun j => j.id = jobId) = some job)
    (hp : job.status = .pending) :
    (∃ db2, removeBackground db now none jobId =
      (db2, .ok { job with
        status := .completed
        processed_file_url := some (mkProcessedUrl job.id now)
        file_size_processed := some (jsFloorMul07 job.file_size_original)
        completed_at := some now
        error_message := none })) ∧
    (∃ db2, removeBackgroundV5 db now jobId =
      (db2, .ok { job with
        status := .completed
        processed_file_url :=
          some (mkProcessedUrlV5 jobId now job.original_filename)
        file_size_processed := some (jsFloorMul07 job.file_size_original)
        completed_at := some now })) ∧
    (toString job.id).toList <:+: (mkProcessedUrl job.id now).toList ∧
    (toString now).toList <:+: (mkProcessedUrl job.id now).toList ∧
    (toString jobId).toList <:+:
      (mkProcessedUrlV5 jobId now job.original_filename).toList ∧
    (toString now).toList <:+:
      (mkProcessedUrlV5 jobId now job.original_filename).toList ∧
    (job.file_size_original = 1024000 →
      jsFloorMul07 job.file_size_original = 716800) := by
  refine ⟨⟨_, removeBackground_success_eq db now jobId job h hp⟩,
    ⟨_, removeBackgroundV5_success_eq db now jobId job h hp⟩,
    urlContainsId job.id now,
    urlContainsNow job.id now,
    urlContainsIdV5 jobId now job.original_filename,
    urlContainsNowV5 jobId now job.original_filename, ?_⟩
  intro hfs
  rw [hfs]
  decide

theorem removeBackground_pending_success_witness :
    ∃ db2, removeBackground [demoPending] 7 none 1 =
      (db2, .ok { demoPending with
        status := .completed
        processed_file_url := some (mkProcessedUrl demoPending.id 7)
        file_size_processed := some (jsFloorMul07 demoPending.file_size_original)
        completed_at := some 7
        error_message := none }) :=
  (removeBackground_pending_success [demoPending] 7 1 demoPending
    (by decide) (by decide)).1

/-- C3 counterexample: on a pending job with `file_size_original = 90`
the code stores `file_size_processed = 62`, while the exact value
`floor(90 * 0.7)` claimed by the spec is 63. -/
theorem removeBackground_C3_counterexample :
    (removeBackground [demoPending90] 5 none 1).2 =
      .ok { demoPending90 with
        status := .completed
        processed_file_url := some (mkProcessedUrl 1 5)
        file_size_processed := some 62
        completed_at := some 5
        error_message := none } ∧
    90 * 7 / 10 = 63 := by
  decide

/-- C4: when the simulated processing step throws after the job was
marked `processing`, `removeBackground` persists and returns the job as
`failed` with the exception message, `completed_at = now`, and both
processed fields still null. -/
theorem removeBackground_failure_persists (db : List ImageJob) (now : Nat)
    (msg : String) (jobId : Nat) (job : ImageJob)
    (h : db.find? (fun j => j.id = jobId) = some job)
    (hp : job.status = .pending)
    (hpu : job.processed_file_url = none)
    (hfs : job.file_size_processed = none) :
    ∃ db2 r, removeBackground db now (some msg) jobId = (db2, .ok r) ∧
      db2.find? (fun j => j.id = jobId) = some r ∧
      r.status = .failed ∧ r.error_message = some msg ∧
      r.completed_at = some now ∧ r.processed_file_url = none ∧
      r.file_size_processed = none := by
  have heq := removeBackground_failure_eq db now msg jobId job h hp
  refine ⟨_, _, heq, ?_, rfl, rfl, rfl, hpu, hfs⟩
  have hid1 : ∀ j : ImageJob,
      (({ j with status := .processing } : ImageJob)).id = j.id := fun _ => rfl
  have h1 := find?_setJob db jobId
    (fun j => { j with status := .processing }) hid1 job h
  have hid2 : ∀ j : ImageJob,
      (({ j with
          status := .failed
          error_message := some msg
          completed_at := some now } : ImageJob)).id = j.id := fun _ => rfl
  exact find?_setJob
    (setJob db jobId (fun j => { j with status := .processing })) jobId
    (fun j =>
      { j with
        status := .failed
        error_message := some msg
        completed_at := some now }) hid2
    ({ job with status := .processing } : ImageJob) h1

theorem removeBackground_failure_persists_witness :
    ∃ db2 r, removeBackground [demoPending] 11 (some "boom") 1 =
        (db2, .ok r) ∧
      db2.find? (fun j => j.id = 1) = some r ∧
      r.status = .failed ∧ r.error_message = some "boom" ∧
      r.completed_at = some 11 ∧ r.processed_file_url = none ∧
      r.file_size_processed = none :=
  removeBackground_failure_persists [demoPending] 11 "boom" 1 demoPending
    (by decide) (by decide) (by decide) (by decide)

/-- C1 counterexample: starting from an invariant-satisfying pending row,
`updateImageJobStatus` accepts an update that keeps status `pending` while
supplying an error message, leaving a row that violates the §3
invariants. -/
theorem updateImageJobStatus_invariant_counterexample :
    JobInv demoPending ∧
    (updateImageJobStatus [demoPending] 5 demoBadUpdate).2 =
      .ok { demoPending with error_message := some "boom" } ∧
    ¬ JobInv { demoPending with error_message := some "boom" } := by
  decide

/-- C1 (amended): on a table with unique ids whose rows all satisfy the
§3 invariants, `createImageJob` and `removeBackground` (either outcome of
the simulated processing step, and every rejection branch) leave every
row satisfying the invariants; `updateImageJobStatus` is not
invariant-preserving. -/
theorem create_remove_preserve_invariants (db : List ImageJob)
    (input : CreateImageJobInput) (nextId now now2 : Nat)
    (procFail : Option String) (jobId : Nat)
    (hids : (db.map ImageJob.id).Nodup)
    (hinv : ∀ j ∈ db, JobInv j) :
    (∀ j2 ∈ (createImageJob db nextId now input).2, JobInv j2) ∧
    (∀ j2 ∈ (removeBackground db now2 procFail jobId).1, JobInv j2) := by
  constructor
  · intro j2 hj2
    simp only [createImageJob, List.mem_append, List.mem_singleton] at hj2
    rcases hj2 with hmem | rfl
    · exact hinv j2 hmem
    · simp [JobInv]
  · cases hfind : db.find? (fun j => j.id = jobId) with
    | none =>
      intro j2 hj2
      simp only [removeBackground, hfind] at hj2
      exact hinv j2 hj2
    | some job =>
      have hpred : job.id = jobId := by
        have h3 := List.find?_some hfind
        simpa using h3
      have hmem : job ∈ db := List.mem_of_find?_eq_some hfind
      cases hst : job.status with
      | completed =>
        intro j2 hj2
        simp [removeBackground, hfind, hst] at hj2
        exact hinv j2 hj2
      | processing =>
        intro j2 hj2
        simp [removeBackground, hfind, hst] at hj2
        exact hinv j2 hj2
      | failed =>
        intro j2 hj2
        simp [removeBackground, hfind, hst] at hj2
        exact hinv j2 hj2
      | pending =>
        cases procFail with
        | none =>
          intro j2 hj2
          rw [removeBackground_success_eq db now2 jobId job hfind hst] at hj2
          simp only [setJob, List.mem_map] at hj2
          rcases hj2 with ⟨y, ⟨x, hx, rfl⟩, rfl⟩
          by_cases hxid : x.id = jobId
          · simp [hxid, JobInv]
          · simpa [hxid] using hinv x hx
        | some msg =>
          intro j2 hj2
          rw [removeBackground_failure_eq db now2 msg jobId job hfind hst]
            at hj2
          simp only [setJob, List.mem_map] at hj2
          rcases hj2 with ⟨y, ⟨x, hx, rfl⟩, rfl⟩
          by_cases hxid : x.id = jobId
          · have hxj : x = job := by
              apply List.inj_on_of_nodup_map hids hx hmem
              rw [hxid, hpred]
            subst hxj
            rcases hinv x hx with ⟨i1, i2, i3, i4⟩
            have hpn : x.processed_file_url = none := by
              by_contra hc
              have h4 := i1 hc
              rw [hst] at h4
              cases h4
            have hsn : x.file_size_processed = none := by
              by_contra hc
              have h4 := i2 hc
              rw [hst] at h4
              cases h4
            simp [hxid, JobInv, hpn, hsn]
          · simpa [hxid] using hinv x hx

theorem create_remove_preserve_invariants_witness :
    (∀ j2 ∈ (createImageJob [demoPending] 2 7 demoCreateInput).2, JobInv j2) ∧
    (∀ j2 ∈ (removeBackground [demoPending] 9 none 1).1, JobInv j2) :=
  create_remove_preserve_invariants [demoPending] demoCreateInput 2 7 9
    none 1 (by decide) (by decide)
